import Mathlib

/-!
Verification development for the style-changer-server repository.

The core of the repository is `clean_html_for_llm` (the structural
sanitizer), duplicated in `style_changer_common.py`, `server-or.py` and
`server-claude.py` (the latter with a larger attribute denylist), plus
three FastAPI endpoint variants (`server.py`, `server-claude.py`,
`server-or.py`).

Embedding choices (shallow embedding, faithful to the sources):

* The sanitizer operates on the parsed DOM tree (BeautifulSoup over
  lxml).  We embed the intermediate DOM tree directly: a document is a
  forest of nodes, each node an element (tag, attribute list, children),
  a text leaf, or a comment leaf.  HTML parsing and serialization are
  the work of the external lxml library, so they are treated as oracles
  (`parse`/`render` parameters) where a claim needs the string boundary.
* BeautifulSoup multi-valued attributes (class) are modelled as their
  space-joined string, matching the joined-string matching BS4 performs
  for regex attribute filters; attribute dictionaries are modelled as
  ordered association lists.
* Each Python pass is translated statement by statement.  `find_all` +
  `decompose`/`extract` with a node-level predicate removes every node
  (together with its subtree) whose predicate holds on the tree as it
  was when the pass reached it; because matches are found in document
  order, ancestors are tested before their descendants, so this equals
  a top-down prune that decides each node on its original subtree.
* External effects of the endpoints (the LLM call, file writes) are
  oracles of type `Except String String`: the value the Python call
  returned, or the message of the exception it raised.
-/

mutual
/-- A node of the intermediate DOM tree built by BeautifulSoup:
an element with tag name, ordered attributes and ordered children,
a text leaf (NavigableString), or a comment leaf. -/
inductive Node where
  | elem (tag : String) (attrs : List (String × String)) (children : Forest)
  | text (s : String)
  | comment (s : String)
/-- An ordered list of sibling nodes; a parsed document is a forest. -/
inductive Forest where
  | nil
  | cons (n : Node) (ns : Forest)
end

/-- Check that the character list `pat` occurs at the start of `s`. -/
def prefixOf : List Char → List Char → Bool
  | [], _ => true
  | _ :: _, [] => false
  | a :: as, b :: bs => a == b && prefixOf as bs

/-- Check that the character list `pat` occurs somewhere inside `s`. -/
def infixOf (pat : List Char) : List Char → Bool
  | [] => pat.isEmpty
  | b :: bs => prefixOf pat (b :: bs) || infixOf pat bs

/-- Python `pat in s` on strings. -/
def containsSub (s pat : String) : Bool := infixOf pat.data s.data

/-- Python `s.startswith(pat)` on strings. -/
def strStarts (s pat : String) : Bool := prefixOf pat.data s.data

/-- Lower-case a string character by character (models `re.IGNORECASE`
matching of the lower-case pattern literals used by the source). -/
def lcStr (s : String) : String := String.mk (s.data.map Char.toLower)

/-- First value bound to attribute `name` (BS4 attribute dictionary
lookup; parsed documents have unique attribute names). -/
def getAttr (attrs : List (String × String)) (name : String) : Option String :=
  match attrs with
  | [] => none
  | (a, v) :: rest => if a == name then some v else getAttr rest name

/-- The element carries the attribute at all (BS4 `attrs={name: True}`). -/
def hasAttrName (attrs : List (String × String)) (name : String) : Bool :=
  (getAttr attrs name).isSome

/-- `forestAll q ns`: `q` holds of every node of the forest, recursively. -/
def forestAll (q : Node → Bool) : Forest → Bool
  | .nil => true
  | .cons (.elem t a c) ns => q (.elem t a c) && forestAll q c && forestAll q ns
  | .cons n ns => q n && forestAll q ns

/-- Top-down prune: remove every node whose predicate holds on its
original subtree, keep the rest and recurse into their children.
Models the `find_all(...)` + `decompose()`/`extract()` pattern of the
source passes. -/
def pruneForest (p : Node → Bool) : Forest → Forest
  | .nil => .nil
  | .cons (.elem t a c) ns =>
      if p (.elem t a c) then pruneForest p ns
      else .cons (.elem t a (pruneForest p c)) (pruneForest p ns)
  | .cons n ns => if p n then pruneForest p ns else .cons n (pruneForest p ns)

/-- Pass 3 of the source: `for svg in soup.find_all('svg'): svg.clear()`
(keep every `svg` element but delete all of its descendants). -/
def svgClearForest : Forest → Forest
  | .nil => .nil
  | .cons (.elem t a c) ns =>
      .cons (if t == "svg" then .elem t a .nil else .elem t a (svgClearForest c))
            (svgClearForest ns)
  | .cons n ns => .cons n (svgClearForest ns)

/-- One attribute of one tag, as processed by the pass
`# 6. Handle data-* attributes and sanitized attributes separately`:
the deletion test (`attr.startswith('data-') or attr in
attributes_to_remove`) and the href/src rewrite are two separate `if`
statements, so an attribute matching both tests ends up present with
value `'#'` (`del tag[attr]` followed by `tag[attr] = '#'`); the
rewrite consults the original value `attrs_copy[attr]` and its
truthiness test requires that value to be non-empty. -/
def processAttr (toRemove : List String) : String × String → Option (String × String)
  | (a, v) =>
    if (a == "href" || a == "src") && !(v == "")
        && (containsSub v "[sanitized" || containsSub v "javascript:") then
      some (a, "#")
    else if strStarts a "data-" || toRemove.contains a then
      none
    else
      some (a, v)

/-- The attribute pass applied to one attribute dictionary. -/
def cleanAttrs (toRemove : List String) (attrs : List (String × String)) :
    List (String × String) :=
  attrs.filterMap (processAttr toRemove)

/-- Passes 5/6 of the source applied over the whole tree:
`for tag in soup.find_all(True): ...` rewrites every element's
attribute dictionary. -/
def attrsForest (toRemove : List String) : Forest → Forest
  | .nil => .nil
  | .cons (.elem t a c) ns =>
      .cons (.elem t (cleanAttrs toRemove a) (attrsForest toRemove c)) (attrsForest toRemove ns)
  | .cons n ns => .cons n (attrsForest toRemove ns)

/-- BS4 `tag.string`: the single string child if there is exactly one
child and it is a `NavigableString` (comments are `NavigableString`
subclasses), the `.string` of the child if there is exactly one child
element, `None` otherwise. -/
def childString : Forest → Option String
  | .cons (.text s) .nil => some s
  | .cons (.comment s) .nil => some s
  | .cons (.elem _ _ c) .nil => childString c
  | _ => none

/-- Python whitespace as removed by `str.strip()`. -/
def isPyWs (c : Char) : Bool :=
  c == ' ' || c == '\t' || c == '\n' || c == '\r' || c == '\x0b' || c == '\x0c'

/-- Whether a direct child is an element; `div.find_all(True)` is
non-empty exactly when some direct child is an element, since every
descendant element lies below a direct child element. -/
def hasElemChild : Forest → Bool
  | .nil => false
  | .cons (.elem _ _ _) _ => true
  | .cons _ ns => hasElemChild ns

/-- Pass 7 predicate: `not div.attrs and (not div.string or not
div.string.strip()) and not div.find_all(True)`. -/
def emptyDivB : Node → Bool
  | .elem t a c =>
      t == "div" && a.isEmpty &&
      (match childString c with
       | none => true
       | some s => s.data.all isPyWs) &&
      !(hasElemChild c)
  | _ => false

/-- `non_visible_patterns` from the source (already lower-case). -/
def nonVisiblePatterns : List String :=
  ["spinner", "tooltip", "skeleton", "loading", "hidden",
   "invisible", "offscreen", "visually-hidden"]

/-- `youtube_non_visible` from the source. -/
def youtubeNonVisible : List String :=
  ["tp-yt-paper-spinner-lite", "tp-yt-paper-tooltip",
   "ytd-popup-container", "ytd-miniplayer"]

/-- `attributes_to_remove` of `style_changer_common.py`. -/
def attrsToRemove_common : List String :=
  ["itemprop", "itemscope", "itemtype", "trackingParams",
   "nonce", "jslog", "ved", "ftl-eligible",
   "notify-on-loaded", "notify-on-unloaded"]

/-- `attributes_to_remove` of `server-or.py` (byte-identical to the
common list in the source). -/
def attrsToRemove_or : List String :=
  ["itemprop", "itemscope", "itemtype", "trackingParams",
   "nonce", "jslog", "ved", "ftl-eligible",
   "notify-on-loaded", "notify-on-unloaded"]

/-- `attributes_to_remove` of `server-claude.py`: the common entries
followed by the accessibility attributes. -/
def attrsToRemove_claude : List String :=
  ["itemprop", "itemscope", "itemtype", "trackingParams",
   "nonce", "jslog", "ved", "ftl-eligible",
   "notify-on-loaded", "notify-on-unloaded",
   "role", "aria-label", "aria-labelledby", "aria-hidden",
   "aria-expanded", "aria-haspopup", "aria-controls",
   "aria-checked", "aria-selected", "aria-current",
   "aria-disabled", "aria-describedby"]

/-- The accessibility entries that `server-claude.py` adds on top of
the common list. -/
def claudeExtraAttrs : List String :=
  ["role", "aria-label", "aria-labelledby", "aria-hidden",
   "aria-expanded", "aria-haspopup", "aria-controls",
   "aria-checked", "aria-selected", "aria-current",
   "aria-disabled", "aria-describedby"]

/-- Tag-membership predicate for the removal passes. -/
def tagInB (ts : List String) : Node → Bool
  | .elem t _ _ => ts.contains t
  | _ => false

/-- Comment-node predicate (pass 2, `isinstance(text, Comment)`). -/
def isCommentB : Node → Bool
  | .comment _ => true
  | _ => false

/-- Pass 4.1 predicate: the element carries a `hidden` attribute. -/
def hasHiddenB : Node → Bool
  | .elem _ a _ => hasAttrName a "hidden"
  | _ => false

/-- Pass 4.2 predicate: the value of attribute `attrName` (class or id)
contains the pattern, case-insensitively (`re.compile(pattern,
re.IGNORECASE)` used as a BS4 attribute filter). -/
def classIdMatch (attrName pat : String) : Node → Bool
  | .elem _ a _ =>
      match getAttr a attrName with
      | some v => containsSub (lcStr v) pat
      | none => false
  | _ => false

/-- One iteration of the pass-4.2 loop body: for one pattern, first
remove the class matches, then the id matches. -/
def patternStep (acc : Forest) (pat : String) : Forest :=
  pruneForest (classIdMatch "id" pat) (pruneForest (classIdMatch "class" pat) acc)

/-- Tags removed by pass 1. -/
def killTags : List String := ["script", "style", "meta", "link"]

/-- Pass 1: remove script, style, meta and link subtrees. -/
def stage1 (doc : Forest) : Forest := pruneForest (tagInB killTags) doc

/-- Pass 2: remove comments. -/
def stage2 (doc : Forest) : Forest := pruneForest isCommentB (stage1 doc)

/-- Pass 3: clear svg children. -/
def stage3 (doc : Forest) : Forest := svgClearForest (stage2 doc)

/-- Pass 4.1: remove elements with a hidden attribute. -/
def stage4 (doc : Forest) : Forest := pruneForest hasHiddenB (stage3 doc)

/-- Pass 4.2: remove elements whose class or id contains a non-visible
pattern. -/
def stage5 (doc : Forest) : Forest := nonVisiblePatterns.foldl patternStep (stage4 doc)

/-- Pass 4.3: remove the YouTube-specific custom elements. -/
def stage6 (doc : Forest) : Forest := pruneForest (tagInB youtubeNonVisible) (stage5 doc)

/-- Passes 5/6: strip data-*/denylisted attributes and neutralize
sanitized or javascript href/src values. -/
def stage7 (toRemove : List String) (doc : Forest) : Forest :=
  attrsForest toRemove (stage6 doc)

/-- The tree part of `clean_html_for_llm`: all passes in source order,
ending with pass 7 (collapse empty attribute-free divs). -/
def cleanDoc (toRemove : List String) (doc : Forest) : Forest :=
  pruneForest emptyDivB (stage7 toRemove doc)

/-- `clean_html_for_llm` at the string boundary: the empty-input
shortcut, the lenient parse (external lxml, an oracle that may fail),
the tree passes and the serialization (external, an oracle), with the
top-level `except` returning the original input on any parse failure. -/
def clean_html_for_llm (toRemove : List String)
    (parse : String → Except String Forest)
    (render : Forest → String) (html : String) : String :=
  if html == "" then ""
  else
    match parse html with
    | .error _ => html
    | .ok doc => render (cleanDoc toRemove doc)

-- sanity checks of the embedding, used nowhere else
example : cleanDoc attrsToRemove_common
    (.cons (.elem "script" [] (.cons (.text "x") .nil))
      (.cons (.elem "div" [("class", "x")] .nil) .nil)) =
    .cons (.elem "div" [("class", "x")] .nil) .nil := rfl

example : cleanDoc attrsToRemove_common
    (.cons (.elem "div" [] (.cons (.elem "div" [] .nil) .nil)) .nil) =
    .cons (.elem "div" [] .nil) .nil := rfl

example : cleanDoc attrsToRemove_common
    (.cons (.elem "svg" [] (.cons (.elem "path" [("d", "M0")] .nil) .nil)) .nil) =
    .cons (.elem "svg" [] .nil) .nil := rfl

example : cleanDoc attrsToRemove_common
    (.cons (.elem "a" [("href", "javascript:alert(1)")] (.cons (.text "x") .nil)) .nil) =
    .cons (.elem "a" [("href", "#")] (.cons (.text "x") .nil)) .nil := rfl

example : cleanDoc attrsToRemove_common
    (.cons (.elem "span" [("class", "Tooltip-Box")] (.cons (.text "x") .nil)) .nil) =
    .nil := rfl

example : cleanDoc attrsToRemove_claude
    (.cons (.elem "p" [("role", "note"), ("aria-label", "y")] (.cons (.text "x") .nil)) .nil) =
    .cons (.elem "p" [] (.cons (.text "x") .nil)) .nil := rfl

example : cleanDoc attrsToRemove_common
    (.cons (.elem "p" [("data-x", "1"), ("itemprop", "z"), ("id", "k")] .nil) .nil) =
    .cons (.elem "p" [("id", "k")] .nil) .nil := rfl

example : cleanDoc attrsToRemove_common
    (.cons (.elem "p" [("hidden", "")] (.cons (.text "x") .nil)) .nil) = .nil := rfl

example : cleanDoc attrsToRemove_common
    (.cons (.comment "note") (.cons (.elem "img" [("src", "x [sanitized-url]")] .nil) .nil)) =
    .cons (.elem "img" [("src", "#")] .nil) .nil := rfl

/-! ### Generic facts about the pass combinators -/

/-- Monotonicity of `forestAll`. -/
theorem forestAll_mono (q r : Node → Bool) (h : ∀ n, q n = true → r n = true) :
    (ns : Forest) → forestAll q ns = true → forestAll r ns = true
  | .nil, _ => rfl
  | .cons (.elem t a c) ns, hh => by
      simp only [forestAll, Bool.and_eq_true] at hh ⊢
      exact ⟨⟨h _ hh.1.1, forestAll_mono q r h c hh.1.2⟩, forestAll_mono q r h ns hh.2⟩
  | .cons (.text s) ns, hh => by
      simp only [forestAll, Bool.and_eq_true] at hh ⊢
      exact ⟨h _ hh.1, forestAll_mono q r h ns hh.2⟩
  | .cons (.comment s) ns, hh => by
      simp only [forestAll, Bool.and_eq_true] at hh ⊢
      exact ⟨h _ hh.1, forestAll_mono q r h ns hh.2⟩

/-- A pass is the identity on a forest no node of which matches its
removal predicate. -/
theorem prune_fix (p : Node → Bool) :
    (ns : Forest) → forestAll (fun n => !p n) ns = true → pruneForest p ns = ns
  | .nil, _ => rfl
  | .cons (.elem t a c) ns, h => by
      simp only [forestAll, Bool.and_eq_true, Bool.not_eq_true'] at h
      simp only [pruneForest, h.1.1, if_false, Bool.false_eq_true]
      rw [prune_fix p c h.1.2, prune_fix p ns h.2]
  | .cons (.text s) ns, h => by
      simp only [forestAll, Bool.and_eq_true, Bool.not_eq_true'] at h
      simp only [pruneForest, h.1, if_false, Bool.false_eq_true]
      rw [prune_fix p ns h.2]
  | .cons (.comment s) ns, h => by
      simp only [forestAll, Bool.and_eq_true, Bool.not_eq_true'] at h
      simp only [pruneForest, h.1, if_false, Bool.false_eq_true]
      rw [prune_fix p ns h.2]

/-- After pruning with a predicate that ignores children, no node of the
result matches the predicate. -/
theorem prune_establishes (p : Node → Bool)
    (hp : ∀ t a c c', p (.elem t a c) = p (.elem t a c')) :
    (ns : Forest) → forestAll (fun n => !p n) (pruneForest p ns) = true
  | .nil => rfl
  | .cons (.elem t a c) ns => by
      rcases hb : p (.elem t a c) with _ | _
      · simp only [pruneForest, hb, if_false, Bool.false_eq_true, forestAll,
          Bool.and_eq_true, Bool.not_eq_true']
        refine ⟨⟨?_, prune_establishes p hp c⟩, prune_establishes p hp ns⟩
        rw [hp t a (pruneForest p c) c]
        exact hb
      · simp only [pruneForest, hb, if_true]
        exact prune_establishes p hp ns
  | .cons (.text s) ns => by
      rcases hb : p (.text s) with _ | _
      · simp only [pruneForest, hb, if_false, Bool.false_eq_true, forestAll,
          Bool.and_eq_true, Bool.not_eq_true']
        exact ⟨trivial, prune_establishes p hp ns⟩
      · simp only [pruneForest, hb, if_true]
        exact prune_establishes p hp ns
  | .cons (.comment s) ns => by
      rcases hb : p (.comment s) with _ | _
      · simp only [pruneForest, hb, if_false, Bool.false_eq_true, forestAll,
          Bool.and_eq_true, Bool.not_eq_true']
        exact ⟨trivial, prune_establishes p hp ns⟩
      · simp only [pruneForest, hb, if_true]
        exact prune_establishes p hp ns

/-- Pruning preserves any forest-wide invariant that survives replacing
the children of a kept element by their pruned versions. -/
theorem prune_preserves (p q : Node → Bool)
    (hq : ∀ t a c, q (.elem t a c) = true → q (.elem t a (pruneForest p c)) = true) :
    (ns : Forest) → forestAll q ns = true → forestAll q (pruneForest p ns) = true
  | .nil, _ => rfl
  | .cons (.elem t a c) ns, h => by
      simp only [forestAll, Bool.and_eq_true] at h
      rcases hb : p (.elem t a c) with _ | _
      · simp only [pruneForest, hb, if_false, Bool.false_eq_true, forestAll, Bool.and_eq_true]
        exact ⟨⟨hq t a c h.1.1, prune_preserves p q hq c h.1.2⟩,
          prune_preserves p q hq ns h.2⟩
      · simp only [pruneForest, hb, if_true]
        exact prune_preserves p q hq ns h.2
  | .cons (.text s) ns, h => by
      simp only [forestAll, Bool.and_eq_true] at h
      rcases hb : p (.text s) with _ | _
      · simp only [pruneForest, hb, if_false, Bool.false_eq_true, forestAll, Bool.and_eq_true]
        exact ⟨h.1, prune_preserves p q hq ns h.2⟩
      · simp only [pruneForest, hb, if_true]
        exact prune_preserves p q hq ns h.2
  | .cons (.comment s) ns, h => by
      simp only [forestAll, Bool.and_eq_true] at h
      rcases hb : p (.comment s) with _ | _
      · simp only [pruneForest, hb, if_false, Bool.false_eq_true, forestAll, Bool.and_eq_true]
        exact ⟨h.1, prune_preserves p q hq ns h.2⟩
      · simp only [pruneForest, hb, if_true]
        exact prune_preserves p q hq ns h.2

/-- Children of an svg element are empty (invariant established by
pass 3). -/
def svgOkB : Node → Bool
  | .elem t _ c => !(t == "svg") || (match c with | .nil => true | .cons _ _ => false)
  | _ => true

/-- Pass 3 is the identity on forests whose svg elements are already
childless. -/
theorem svg_fix : (ns : Forest) → forestAll svgOkB ns = true → svgClearForest ns = ns
  | .nil, _ => rfl
  | .cons (.elem t a c) ns, h => by
      simp only [forestAll, Bool.and_eq_true] at h
      rcases ht : t == "svg" with _ | _
      · simp only [svgClearForest, ht, if_false, Bool.false_eq_true]
        rw [svg_fix c h.1.2, svg_fix ns h.2]
      · have hc : c = .nil := by
          have h1 := h.1.1
          simp only [svgOkB, ht, Bool.not_true, Bool.false_or] at h1
          cases c with
          | nil => rfl
          | cons m ms => simp at h1
        subst hc
        simp only [svgClearForest, ht, if_true]
        rw [svg_fix ns h.2]
  | .cons (.text s) ns, h => by
      simp only [forestAll, Bool.and_eq_true] at h
      simp only [svgClearForest]
      rw [svg_fix ns h.2]
  | .cons (.comment s) ns, h => by
      simp only [forestAll, Bool.and_eq_true] at h
      simp only [svgClearForest]
      rw [svg_fix ns h.2]

/-- After pass 3 every svg element is childless. -/
theorem svg_establishes : (ns : Forest) → forestAll svgOkB (svgClearForest ns) = true
  | .nil => rfl
  | .cons (.elem t a c) ns => by
      rcases ht : t == "svg" with _ | _
      · simp only [svgClearForest, ht, if_false, Bool.false_eq_true, forestAll,
          Bool.and_eq_true]
        refine ⟨⟨?_, svg_establishes c⟩, svg_establishes ns⟩
        simp [svgOkB, ht]
      · simp only [svgClearForest, ht, if_true, forestAll, Bool.and_eq_true]
        refine ⟨⟨?_, trivial⟩, svg_establishes ns⟩
        simp [svgOkB]
  | .cons (.text s) ns => by
      simp only [svgClearForest, forestAll, Bool.and_eq_true]
      exact ⟨rfl, svg_establishes ns⟩
  | .cons (.comment s) ns => by
      simp only [svgClearForest, forestAll, Bool.and_eq_true]
      exact ⟨rfl, svg_establishes ns⟩

/-- Pass 3 preserves any invariant that survives emptying the children
of an svg element and recursing into the others. -/
theorem svg_preserves (q : Node → Bool)
    (hq1 : ∀ t a c, q (.elem t a c) = true → q (.elem t a .nil) = true)
    (hq2 : ∀ t a c, q (.elem t a c) = true → q (.elem t a (svgClearForest c)) = true) :
    (ns : Forest) → forestAll q ns = true → forestAll q (svgClearForest ns) = true
  | .nil, _ => rfl
  | .cons (.elem t a c) ns, h => by
      simp only [forestAll, Bool.and_eq_true] at h
      rcases ht : t == "svg" with _ | _
      · simp only [svgClearForest, ht, if_false, Bool.false_eq_true, forestAll,
          Bool.and_eq_true]
        exact ⟨⟨hq2 t a c h.1.1, svg_preserves q hq1 hq2 c h.1.2⟩,
          svg_preserves q hq1 hq2 ns h.2⟩
      · simp only [svgClearForest, ht, if_true, forestAll, Bool.and_eq_true]
        exact ⟨⟨hq1 t a c h.1.1, trivial⟩, svg_preserves q hq1 hq2 ns h.2⟩
  | .cons (.text s) ns, h => by
      simp only [forestAll, Bool.and_eq_true] at h
      simp only [svgClearForest, forestAll, Bool.and_eq_true]
      exact ⟨h.1, svg_preserves q hq1 hq2 ns h.2⟩
  | .cons (.comment s) ns, h => by
      simp only [forestAll, Bool.and_eq_true] at h
      simp only [svgClearForest, forestAll, Bool.and_eq_true]
      exact ⟨h.1, svg_preserves q hq1 hq2 ns h.2⟩

/-- Element attributes are already in the form produced by the
attribute pass. -/
def attrsOkB (toRemove : List String) : Node → Bool
  | .elem _ a _ => cleanAttrs toRemove a == a
  | _ => true

/-- The attribute pass is the identity on forests whose attribute
dictionaries it would not change. -/
theorem attrs_fix (L : List String) :
    (ns : Forest) → forestAll (attrsOkB L) ns = true → attrsForest L ns = ns
  | .nil, _ => rfl
  | .cons (.elem t a c) ns, h => by
      simp only [forestAll, Bool.and_eq_true] at h
      have ha : cleanAttrs L a = a := by
        have := h.1.1
        simpa [attrsOkB] using this
      simp only [attrsForest, ha]
      rw [attrs_fix L c h.1.2, attrs_fix L ns h.2]
  | .cons (.text s) ns, h => by
      simp only [forestAll, Bool.and_eq_true] at h
      simp only [attrsForest]
      rw [attrs_fix L ns h.2]
  | .cons (.comment s) ns, h => by
      simp only [forestAll, Bool.and_eq_true] at h
      simp only [attrsForest]
      rw [attrs_fix L ns h.2]

/-- The attribute pass preserves any invariant that survives rewriting
an element's attributes and recursing into its children. -/
theorem attrs_preserves (L : List String) (q : Node → Bool)
    (hq : ∀ t a c, q (.elem t a c) = true → q (.elem t (cleanAttrs L a) (attrsForest L c)) = true) :
    (ns : Forest) → forestAll q ns = true → forestAll q (attrsForest L ns) = true
  | .nil, _ => rfl
  | .cons (.elem t a c) ns, h => by
      simp only [forestAll, Bool.and_eq_true] at h
      simp only [attrsForest, forestAll, Bool.and_eq_true]
      exact ⟨⟨hq t a c h.1.1, attrs_preserves L q hq c h.1.2⟩,
        attrs_preserves L q hq ns h.2⟩
  | .cons (.text s) ns, h => by
      simp only [forestAll, Bool.and_eq_true] at h
      simp only [attrsForest, forestAll, Bool.and_eq_true]
      exact ⟨h.1, attrs_preserves L q hq ns h.2⟩
  | .cons (.comment s) ns, h => by
      simp only [forestAll, Bool.and_eq_true] at h
      simp only [attrsForest, forestAll, Bool.and_eq_true]
      exact ⟨h.1, attrs_preserves L q hq ns h.2⟩

/-! ### Facts about the attribute rewrite -/

/-- A prefix occurrence is in particular an inner occurrence. -/
theorem prefixOf_infixOf : ∀ pat s, prefixOf pat s = true → infixOf pat s = true
  | pat, [], h => by
      cases pat with
      | nil => rfl
      | cons c cs => exact absurd h (by simp [prefixOf])
  | pat, b :: bs, h => by
      simp only [infixOf, Bool.or_eq_true]
      exact Or.inl h

/-- `s.startswith(pat)` implies `pat in s`. -/
theorem strStarts_containsSub (s pat : String) (h : strStarts s pat = true) :
    containsSub s pat = true :=
  prefixOf_infixOf pat.data s.data h

/-- A value matching one of the href/src markers is non-empty. -/
theorem marker_nonempty (v : String)
    (h : (containsSub v "[sanitized" || containsSub v "javascript:") = true) :
    (v == "") = false := by
  rcases hv : (v == "") with _ | _
  · rfl
  · have : v = "" := by simpa using hv
    subst this
    simp only [show containsSub "" "[sanitized" = false from rfl,
      show containsSub "" "javascript:" = false from rfl, Bool.or_false] at h
    exact absurd h (by simp)

/-- `processAttr` keeps the attribute name. -/
theorem processAttr_name (L : List String) (a v b w : String)
    (h : processAttr L (a, v) = some (b, w)) : b = a := by
  simp only [processAttr] at h
  by_cases hc : ((a == "href" || a == "src") && !(v == "")
      && (containsSub v "[sanitized" || containsSub v "javascript:")) = true
  · rw [if_pos hc] at h
    simp only [Option.some.injEq, Prod.mk.injEq] at h
    exact h.1.symm
  · rw [if_neg hc] at h
    by_cases hd : (strStarts a "data-" || L.contains a) = true
    · rw [if_pos hd] at h
      exact absurd h (by simp)
    · rw [if_neg hd] at h
      simp only [Option.some.injEq, Prod.mk.injEq] at h
      exact h.1.symm

/-- Unfolding `cleanAttrs` over a dropped head attribute. -/
theorem cleanAttrs_cons_none (L : List String) (a v : String)
    (rest : List (String × String)) (hp : processAttr L (a, v) = none) :
    cleanAttrs L ((a, v) :: rest) = cleanAttrs L rest := by
  simp [cleanAttrs, List.filterMap_cons, hp]

/-- Unfolding `cleanAttrs` over a kept head attribute. -/
theorem cleanAttrs_cons_some (L : List String) (a v : String) (q : String × String)
    (rest : List (String × String)) (hp : processAttr L (a, v) = some q) :
    cleanAttrs L ((a, v) :: rest) = q :: cleanAttrs L rest := by
  simp [cleanAttrs, List.filterMap_cons, hp]

/-- Lookup at a matching head. -/
theorem getAttr_cons_eq (a nm v : String) (rest : List (String × String))
    (h : (a == nm) = true) : getAttr ((a, v) :: rest) nm = some v := by
  simp [getAttr, h]

/-- Lookup skips a non-matching head. -/
theorem getAttr_cons_ne (a nm v : String) (rest : List (String × String))
    (h : (a == nm) = false) : getAttr ((a, v) :: rest) nm = getAttr rest nm := by
  simp [getAttr, h]

/-- Once processed, an attribute is a fixed point of `processAttr`,
provided the denylist contains neither `href` nor `src` (true of all
three variants). -/
theorem processAttr_stable (L : List String)
    (h1 : L.contains "href" = false) (h2 : L.contains "src" = false)
    (a v b w : String) (h : processAttr L (a, v) = some (b, w)) :
    processAttr L (b, w) = some (b, w) := by
  simp only [processAttr] at h
  by_cases hc : ((a == "href" || a == "src") && !(v == "")
      && (containsSub v "[sanitized" || containsSub v "javascript:")) = true
  · rw [if_pos hc] at h
    simp only [Option.some.injEq, Prod.mk.injEq] at h
    have ha : a = "href" ∨ a = "src" := by
      simp only [Bool.and_eq_true, Bool.or_eq_true, beq_iff_eq] at hc
      exact hc.1.1
    rw [← h.1, ← h.2]
    have hm : (containsSub "#" "[sanitized" || containsSub "#" "javascript:") = false := rfl
    simp only [processAttr, hm, Bool.and_false, Bool.false_eq_true, if_false]
    rcases ha with ha | ha <;> subst ha
    · have hcc : (strStarts "href" "data-" || L.contains "href") = false := by
        rw [show strStarts "href" "data-" = false from rfl, h1]
        rfl
      rw [hcc]
      rfl
    · have hcc : (strStarts "src" "data-" || L.contains "src") = false := by
        rw [show strStarts "src" "data-" = false from rfl, h2]
        rfl
      rw [hcc]
      rfl
  · rw [if_neg hc] at h
    by_cases hd : (strStarts a "data-" || L.contains a) = true
    · rw [if_pos hd] at h
      exact absurd h (by simp)
    · rw [if_neg hd] at h
      simp only [Option.some.injEq, Prod.mk.injEq] at h
      rw [← h.1, ← h.2]
      simp only [processAttr]
      rw [if_neg hc, if_neg hd]

/-- The attribute rewrite of one dictionary is idempotent (denylist
without `href`/`src`). -/
theorem cleanAttrs_idem (L : List String)
    (h1 : L.contains "href" = false) (h2 : L.contains "src" = false) :
    ∀ attrs, cleanAttrs L (cleanAttrs L attrs) = cleanAttrs L attrs := by
  intro attrs
  induction attrs with
  | nil => rfl
  | cons p rest ih =>
    obtain ⟨a, v⟩ := p
    cases hp : processAttr L (a, v) with
    | none =>
      rw [cleanAttrs_cons_none L a v rest hp, ih]
    | some q =>
      obtain ⟨b, w⟩ := q
      have hst := processAttr_stable L h1 h2 a v b w hp
      rw [cleanAttrs_cons_some L a v (b, w) rest hp,
        cleanAttrs_cons_some L b w (b, w) (cleanAttrs L rest) hst, ih]

/-- If the rewritten dictionary binds a name, so did the original. -/
theorem hasAttrName_cleanAttrs (L : List String) :
    ∀ attrs nm, hasAttrName (cleanAttrs L attrs) nm = true → hasAttrName attrs nm = true := by
  intro attrs nm
  induction attrs with
  | nil => exact fun h => h
  | cons p rest ih =>
    obtain ⟨a, v⟩ := p
    intro h
    by_cases hae : (a == nm) = true
    · simp [hasAttrName, getAttr_cons_eq a nm v rest hae]
    · have hae' : (a == nm) = false := by simpa using hae
      have hh : hasAttrName (cleanAttrs L rest) nm = true := by
        cases hp : processAttr L (a, v) with
        | none =>
          rwa [cleanAttrs_cons_none L a v rest hp] at h
        | some q =>
          obtain ⟨b, w⟩ := q
          have hb : b = a := processAttr_name L a v b w hp
          rw [hb] at hp
          rw [cleanAttrs_cons_some L a v (a, w) rest hp] at h
          simpa [hasAttrName, getAttr_cons_ne a nm w (cleanAttrs L rest) hae'] using h
      have := ih hh
      simpa [hasAttrName, getAttr_cons_ne a nm v rest hae'] using this

/-- Attribute names other than `href`/`src` that are neither
data-prefixed nor denylisted keep their value through the rewrite. -/
theorem getAttr_cleanAttrs_eq (L : List String) (nm : String)
    (hn1 : (nm == "href") = false) (hn2 : (nm == "src") = false)
    (hnd : strStarts nm "data-" = false) (hnm : L.contains nm = false) :
    ∀ attrs, getAttr (cleanAttrs L attrs) nm = getAttr attrs nm := by
  intro attrs
  induction attrs with
  | nil => rfl
  | cons p rest ih =>
    obtain ⟨a, v⟩ := p
    by_cases hae : (a == nm) = true
    · have ha : a = nm := by simpa using hae
      subst ha
      have hkeep : processAttr L (a, v) = some (a, v) := by
        have hfirst : ((a == "href" || a == "src") && !(v == "")
            && (containsSub v "[sanitized" || containsSub v "javascript:")) = false := by
          rw [hn1, hn2]
          rfl
        have hsecond : (strStarts a "data-" || L.contains a) = false := by
          rw [hnd, hnm]
          rfl
        simp only [processAttr, hfirst, hsecond, Bool.false_eq_true, if_false]
      rw [cleanAttrs_cons_some L a v (a, v) rest hkeep,
        getAttr_cons_eq a a v (cleanAttrs L rest) hae,
        getAttr_cons_eq a a v rest hae]
    · have hae' : (a == nm) = false := by simpa using hae
      cases hp : processAttr L (a, v) with
      | none =>
        rw [cleanAttrs_cons_none L a v rest hp, getAttr_cons_ne a nm v rest hae']
        exact ih
      | some q =>
        obtain ⟨b, w⟩ := q
        have hb : b = a := processAttr_name L a v b w hp
        rw [hb] at hp
        rw [cleanAttrs_cons_some L a v (a, w) rest hp,
          getAttr_cons_ne a nm w (cleanAttrs L rest) hae',
          getAttr_cons_ne a nm v rest hae']
        exact ih

/-- An href/src value matching a marker is rewritten to `#`. -/
theorem getAttr_cleanAttrs_marker (L : List String) (nm : String)
    (hnm : nm = "href" ∨ nm = "src") :
    ∀ attrs v, getAttr attrs nm = some v →
      (containsSub v "[sanitized" || containsSub v "javascript:") = true →
      getAttr (cleanAttrs L attrs) nm = some "#" := by
  intro attrs
  induction attrs with
  | nil =>
    intro v h
    exact absurd h (by simp [getAttr])
  | cons p rest ih =>
    obtain ⟨a, u⟩ := p
    intro v h hmk
    by_cases hae : (a == nm) = true
    · have ha : a = nm := by simpa using hae
      subst ha
      rw [getAttr_cons_eq a a u rest (by simp)] at h
      have hu : u = v := by simpa using h
      subst hu
      have hrw : processAttr L (a, u) = some (a, "#") := by
        have hcnd : ((a == "href" || a == "src") && !(u == "")
            && (containsSub u "[sanitized" || containsSub u "javascript:")) = true := by
          rcases hnm with ha | ha <;> subst ha <;>
            simp [marker_nonempty u hmk, hmk]
        simp only [processAttr, hcnd, if_true]
      rw [cleanAttrs_cons_some L a u (a, "#") rest hrw,
        getAttr_cons_eq a a "#" (cleanAttrs L rest) (by simp)]
    · have hae' : (a == nm) = false := by simpa using hae
      rw [getAttr_cons_ne a nm u rest hae'] at h
      cases hp : processAttr L (a, u) with
      | none =>
        rw [cleanAttrs_cons_none L a u rest hp]
        exact ih v h hmk
      | some q =>
        obtain ⟨b, w⟩ := q
        have hb : b = a := processAttr_name L a u b w hp
        rw [hb] at hp
        rw [cleanAttrs_cons_some L a u (a, w) rest hp,
          getAttr_cons_ne a nm w (cleanAttrs L rest) hae']
        exact ih v h hmk

/-! ### Invariants established by the pipeline and their preservation -/

/-- Predicates on elements that ignore the children. -/
def childIndep (q : Node → Bool) : Prop :=
  ∀ t a c c', q (.elem t a c) = q (.elem t a c')

theorem childIndep_not (q : Node → Bool) (h : childIndep q) :
    childIndep (fun n => !q n) := by
  intro t a c c'
  simp only [h t a c c']

theorem tagInB_childIndep (ts : List String) : childIndep (tagInB ts) :=
  fun _ _ _ _ => rfl

theorem isCommentB_childIndep : childIndep isCommentB :=
  fun _ _ _ _ => rfl

theorem hasHiddenB_childIndep : childIndep hasHiddenB :=
  fun _ _ _ _ => rfl

theorem classIdMatch_childIndep (nm pat : String) : childIndep (classIdMatch nm pat) :=
  fun _ _ _ _ => rfl

/-- Pruning preserves child-independent invariants. -/
theorem chain_prune (p q : Node → Bool) (hq : childIndep q) {ns : Forest}
    (h : forestAll q ns = true) : forestAll q (pruneForest p ns) = true :=
  prune_preserves p q
    (fun t a c hh => by rw [hq t a (pruneForest p c) c]; exact hh) ns h

/-- Clearing svg children preserves child-independent invariants. -/
theorem chain_svg (q : Node → Bool) (hq : childIndep q) {ns : Forest}
    (h : forestAll q ns = true) : forestAll q (svgClearForest ns) = true :=
  svg_preserves q
    (fun t a c hh => by rw [hq t a .nil c]; exact hh)
    (fun t a c hh => by rw [hq t a (svgClearForest c) c]; exact hh) ns h

/-- The pattern fold preserves invariants stable under pruning. -/
theorem foldPat_preserves (q : Node → Bool)
    (hq : ∀ (p : Node → Bool) t a c, q (.elem t a c) = true → q (.elem t a (pruneForest p c)) = true) :
    ∀ (pats : List String) (ns : Forest), forestAll q ns = true →
      forestAll q (pats.foldl patternStep ns) = true
  | [], _, h => h
  | pat :: pats, ns, h => by
      rw [List.foldl_cons]
      exact foldPat_preserves q hq pats (patternStep ns pat)
        (prune_preserves _ q (hq _) _ (prune_preserves _ q (hq _) _ h))

/-- The pattern fold preserves child-independent invariants. -/
theorem chain_fold (q : Node → Bool) (hq : childIndep q) (pats : List String) {ns : Forest}
    (h : forestAll q ns = true) : forestAll q (pats.foldl patternStep ns) = true :=
  foldPat_preserves q
    (fun p t a c hh => by rw [hq t a (pruneForest p c) c]; exact hh) pats ns h

/-- The attribute pass preserves invariants stable under the attribute
rewrite and independent of children. -/
theorem chain_attrs (L : List String) (q : Node → Bool)
    (hq : ∀ t a c c', q (.elem t a c) = true → q (.elem t (cleanAttrs L a) c') = true)
    {ns : Forest} (h : forestAll q ns = true) : forestAll q (attrsForest L ns) = true :=
  attrs_preserves L q (fun t a c hh => hq t a c _ hh) ns h

/-- The pattern fold is the identity if no pattern matches anywhere. -/
theorem foldPat_fix :
    ∀ (pats : List String) (ns : Forest),
      (∀ pat ∈ pats,
        forestAll (fun n => !classIdMatch "class" pat n) ns = true ∧
        forestAll (fun n => !classIdMatch "id" pat n) ns = true) →
      pats.foldl patternStep ns = ns
  | [], _, _ => rfl
  | pat :: pats, ns, h => by
      rw [List.foldl_cons]
      have h0 := h pat (List.mem_cons_self pat pats)
      have hstep : patternStep ns pat = ns := by
        rw [patternStep, prune_fix _ ns h0.1, prune_fix _ ns h0.2]
      rw [hstep]
      exact foldPat_fix pats ns (fun p hp => h p (List.mem_cons_of_mem _ hp))

/-- After the pattern fold, no listed pattern matches any class or id. -/
theorem foldPat_establishes :
    ∀ (pats : List String) (pat : String), pat ∈ pats → ∀ ns,
      forestAll (fun n => !classIdMatch "class" pat n) (pats.foldl patternStep ns) = true ∧
      forestAll (fun n => !classIdMatch "id" pat n) (pats.foldl patternStep ns) = true
  | [], pat, hmem, _ => absurd hmem (List.not_mem_nil pat)
  | p0 :: pats, pat, hmem, ns => by
      rw [List.foldl_cons]
      rcases List.mem_cons.mp hmem with heq | hmem'
      · subst heq
        have hcls : forestAll (fun n => !classIdMatch "class" pat n) (patternStep ns pat) = true := by
          rw [patternStep]
          exact chain_prune _ _ (childIndep_not _ (classIdMatch_childIndep "class" pat))
            (prune_establishes (classIdMatch "class" pat) (fun t a c c' => rfl) ns)
        have hid : forestAll (fun n => !classIdMatch "id" pat n) (patternStep ns pat) = true := by
          rw [patternStep]
          exact prune_establishes (classIdMatch "id" pat) (fun t a c c' => rfl) _
        exact ⟨chain_fold _ (childIndep_not _ (classIdMatch_childIndep "class" pat)) pats hcls,
          chain_fold _ (childIndep_not _ (classIdMatch_childIndep "id" pat)) pats hid⟩
      · exact foldPat_establishes pats pat hmem' (patternStep ns p0)

/-- After the attribute pass, every dictionary is a fixed point of the
rewrite. -/
theorem attrs_establishes (L : List String)
    (h1 : L.contains "href" = false) (h2 : L.contains "src" = false) :
    (ns : Forest) → forestAll (attrsOkB L) (attrsForest L ns) = true
  | .nil => rfl
  | .cons (.elem t a c) ns => by
      simp only [attrsForest, forestAll, Bool.and_eq_true]
      refine ⟨⟨?_, attrs_establishes L h1 h2 c⟩, attrs_establishes L h1 h2 ns⟩
      simp [attrsOkB, cleanAttrs_idem L h1 h2 a]
  | .cons (.text s) ns => by
      simp only [attrsForest, forestAll, Bool.and_eq_true]
      exact ⟨rfl, attrs_establishes L h1 h2 ns⟩
  | .cons (.comment s) ns => by
      simp only [attrsForest, forestAll, Bool.and_eq_true]
      exact ⟨rfl, attrs_establishes L h1 h2 ns⟩

/-- The attribute rewrite does not change class/id values (these names
are not data-prefixed and, for the variant denylists, not denylisted). -/
theorem classIdMatch_attrs_step (L : List String) (nm pat : String)
    (hn1 : (nm == "href") = false) (hn2 : (nm == "src") = false)
    (hnd : strStarts nm "data-" = false) (hnm : L.contains nm = false)
    (t : String) (a : List (String × String)) (c c' : Forest) :
    classIdMatch nm pat (.elem t (cleanAttrs L a) c') = classIdMatch nm pat (.elem t a c) := by
  simp only [classIdMatch, getAttr_cleanAttrs_eq L nm hn1 hn2 hnd hnm a]

/-- The attribute rewrite never introduces a `hidden` attribute. -/
theorem hasHidden_attrs_step (L : List String) (t : String)
    (a : List (String × String)) (c c' : Forest)
    (h : hasHiddenB (.elem t a c) = false) :
    hasHiddenB (.elem t (cleanAttrs L a) c') = false := by
  simp only [hasHiddenB] at h ⊢
  rcases hh : hasAttrName (cleanAttrs L a) "hidden" with _ | _
  · rfl
  · exact absurd (hasAttrName_cleanAttrs L a "hidden" hh) (by rw [h]; simp)

/-- Pruning keeps svg elements childless. -/
theorem svgOk_prune_step (p : Node → Bool) (t : String)
    (a : List (String × String)) (c : Forest)
    (h : svgOkB (.elem t a c) = true) : svgOkB (.elem t a (pruneForest p c)) = true := by
  cases c with
  | nil => simpa [pruneForest] using h
  | cons m ms =>
    rcases ht : t == "svg" with _ | _
    · simp [svgOkB, ht]
    · simp [svgOkB, ht] at h

/-- The attribute rewrite keeps svg elements childless. -/
theorem svgOk_attrs_step (L : List String) (t : String)
    (a : List (String × String)) (c : Forest)
    (h : svgOkB (.elem t a c) = true) :
    svgOkB (.elem t (cleanAttrs L a) (attrsForest L c)) = true := by
  cases c with
  | nil => simpa [attrsForest] using h
  | cons m ms =>
    rcases ht : t == "svg" with _ | _
    · simp [svgOkB, ht]
    · simp [svgOkB, ht] at h

theorem attrsOkB_childIndep (L : List String) : childIndep (attrsOkB L) :=
  fun _ _ _ _ => rfl

/-- No script/style/meta/link element survives the pipeline. -/
theorem outInv_kill (L : List String) (d : Forest) :
    forestAll (fun n => !tagInB killTags n) (cleanDoc L d) = true := by
  have hq := childIndep_not _ (tagInB_childIndep killTags)
  have h1 : forestAll (fun n => !tagInB killTags n) (stage1 d) = true :=
    prune_establishes (tagInB killTags) (fun t a c c' => rfl) d
  have h2 := chain_prune isCommentB _ hq h1
  have h3 := chain_svg _ hq h2
  have h4 := chain_prune hasHiddenB _ hq h3
  have h5 := chain_fold _ hq nonVisiblePatterns h4
  have h6 := chain_prune (tagInB youtubeNonVisible) _ hq h5
  have h7 := chain_attrs L (fun n => !tagInB killTags n) (fun t a c c' hh => hh) h6
  exact chain_prune emptyDivB _ hq h7

/-- No comment node survives the pipeline. -/
theorem outInv_comment (L : List String) (d : Forest) :
    forestAll (fun n => !isCommentB n) (cleanDoc L d) = true := by
  have hq := childIndep_not _ isCommentB_childIndep
  have h2 : forestAll (fun n => !isCommentB n) (stage2 d) = true :=
    prune_establishes isCommentB (fun t a c c' => rfl) (stage1 d)
  have h3 := chain_svg _ hq h2
  have h4 := chain_prune hasHiddenB _ hq h3
  have h5 := chain_fold _ hq nonVisiblePatterns h4
  have h6 := chain_prune (tagInB youtubeNonVisible) _ hq h5
  have h7 := chain_attrs L (fun n => !isCommentB n) (fun t a c c' hh => hh) h6
  exact chain_prune emptyDivB _ hq h7

/-- Every svg element of the output is childless. -/
theorem outInv_svg (L : List String) (d : Forest) :
    forestAll svgOkB (cleanDoc L d) = true := by
  have h3 : forestAll svgOkB (stage3 d) = true := svg_establishes (stage2 d)
  have h4 := prune_preserves hasHiddenB svgOkB (svgOk_prune_step hasHiddenB) _ h3
  have h5 := foldPat_preserves svgOkB (fun p t a c h => svgOk_prune_step p t a c h)
    nonVisiblePatterns _ h4
  have h6 := prune_preserves (tagInB youtubeNonVisible) svgOkB
    (svgOk_prune_step (tagInB youtubeNonVisible)) _ h5
  have h7 := attrs_preserves L svgOkB (fun t a c h => svgOk_attrs_step L t a c h) _ h6
  exact prune_preserves emptyDivB svgOkB (svgOk_prune_step emptyDivB) _ h7

/-- No element of the output carries a `hidden` attribute. -/
theorem outInv_hidden (L : List String) (d : Forest) :
    forestAll (fun n => !hasHiddenB n) (cleanDoc L d) = true := by
  have hq := childIndep_not _ hasHiddenB_childIndep
  have h4 : forestAll (fun n => !hasHiddenB n) (stage4 d) = true :=
    prune_establishes hasHiddenB (fun t a c c' => rfl) (stage3 d)
  have h5 := chain_fold _ hq nonVisiblePatterns h4
  have h6 := chain_prune (tagInB youtubeNonVisible) _ hq h5
  have h7 := chain_attrs L _ (fun t a c c' hh => by
    have h0 : hasHiddenB (.elem t a c) = false := by simpa using hh
    have h1 := hasHidden_attrs_step L t a c c' h0
    simpa using h1) h6
  exact chain_prune emptyDivB _ hq h7

/-- No class/id of the output matches a non-visible pattern (denylist
without `class`/`id`, true of all three variants). -/
theorem outInv_pattern (L : List String)
    (hclass : L.contains "class" = false) (hid : L.contains "id" = false)
    (pat : String) (hmem : pat ∈ nonVisiblePatterns) (d : Forest) :
    forestAll (fun n => !classIdMatch "class" pat n) (cleanDoc L d) = true ∧
    forestAll (fun n => !classIdMatch "id" pat n) (cleanDoc L d) = true := by
  have hqc := childIndep_not _ (classIdMatch_childIndep "class" pat)
  have hqi := childIndep_not _ (classIdMatch_childIndep "id" pat)
  have h5 := foldPat_establishes nonVisiblePatterns pat hmem (stage4 d)
  have h6c := chain_prune (tagInB youtubeNonVisible) _ hqc h5.1
  have h6i := chain_prune (tagInB youtubeNonVisible) _ hqi h5.2
  have h7c := chain_attrs L _ (fun t a c c' hh => by
    have := classIdMatch_attrs_step L "class" pat rfl rfl rfl hclass t a c c'
    simpa [this] using hh) h6c
  have h7i := chain_attrs L _ (fun t a c c' hh => by
    have := classIdMatch_attrs_step L "id" pat rfl rfl rfl hid t a c c'
    simpa [this] using hh) h6i
  exact ⟨chain_prune emptyDivB _ hqc h7c, chain_prune emptyDivB _ hqi h7i⟩

/-- No YouTube-specific custom element survives the pipeline. -/
theorem outInv_yt (L : List String) (d : Forest) :
    forestAll (fun n => !tagInB youtubeNonVisible n) (cleanDoc L d) = true := by
  have hq := childIndep_not _ (tagInB_childIndep youtubeNonVisible)
  have h6 : forestAll (fun n => !tagInB youtubeNonVisible n) (stage6 d) = true :=
    prune_establishes (tagInB youtubeNonVisible) (fun t a c c' => rfl) (stage5 d)
  have h7 := chain_attrs L (fun n => !tagInB youtubeNonVisible n) (fun t a c c' hh => hh) h6
  exact chain_prune emptyDivB _ hq h7

/-- Every attribute dictionary of the output is a fixed point of the
attribute rewrite (denylist without `href`/`src`). -/
theorem outInv_attrs (L : List String)
    (h1 : L.contains "href" = false) (h2 : L.contains "src" = false) (d : Forest) :
    forestAll (attrsOkB L) (cleanDoc L d) = true := by
  have h7 : forestAll (attrsOkB L) (stage7 L d) = true :=
    attrs_establishes L h1 h2 (stage6 d)
  exact chain_prune emptyDivB _ (attrsOkB_childIndep L) h7

/-- If the first run leaves no empty attribute-free div, a second run of
the pipeline is the identity on its output.  The side conditions on the
denylist (`href`, `src`, `class`, `id` not denylisted) hold for all
three variants. -/
theorem cleanDoc_idem (L : List String)
    (hhref : L.contains "href" = false) (hsrc : L.contains "src" = false)
    (hclass : L.contains "class" = false) (hid : L.contains "id" = false)
    (d : Forest)
    (hnd : forestAll (fun n => !emptyDivB n) (cleanDoc L d) = true) :
    cleanDoc L (cleanDoc L d) = cleanDoc L d := by
  have s1 : stage1 (cleanDoc L d) = cleanDoc L d :=
    prune_fix _ _ (outInv_kill L d)
  have s2 : stage2 (cleanDoc L d) = cleanDoc L d := by
    rw [stage2, s1]
    exact prune_fix _ _ (outInv_comment L d)
  have s3 : stage3 (cleanDoc L d) = cleanDoc L d := by
    rw [stage3, s2]
    exact svg_fix _ (outInv_svg L d)
  have s4 : stage4 (cleanDoc L d) = cleanDoc L d := by
    rw [stage4, s3]
    exact prune_fix _ _ (outInv_hidden L d)
  have s5 : stage5 (cleanDoc L d) = cleanDoc L d := by
    rw [stage5, s4]
    exact foldPat_fix nonVisiblePatterns _
      (fun pat hp => outInv_pattern L hclass hid pat hp d)
  have s6 : stage6 (cleanDoc L d) = cleanDoc L d := by
    rw [stage6, s5]
    exact prune_fix _ _ (outInv_yt L d)
  have s7 : stage7 L (cleanDoc L d) = cleanDoc L d := by
    rw [stage7, s6]
    exact attrs_fix L _ (outInv_attrs L hhref hsrc d)
  calc cleanDoc L (cleanDoc L d)
      = pruneForest emptyDivB (stage7 L (cleanDoc L d)) := rfl
    _ = pruneForest emptyDivB (cleanDoc L d) := by rw [s7]
    _ = cleanDoc L d := prune_fix _ _ hnd

/-! ### Endpoint models

The three `/restyle` endpoint variants, with the external effects
(upstream LLM call, snapshot file writes) passed in as `Except` oracles:
`.ok s` when the Python call returned `s`, `.error e` when it raised an
exception with message `e`.  The trace records whether the upstream call
was reached and which prompt it was given. -/

/-- The observable result of one `/restyle` request. -/
inductive Outcome where
  | ok (fields : List (String × String))
  | httpError (status : Nat) (detail : String)
  | unhandled (msg : String)

/-- What one request did: whether the upstream LLM call was attempted,
the prompt string handed to it, and the HTTP-level outcome. -/
structure CallTrace where
  upstreamAttempted : Bool
  upstreamPrompt : Option String
  outcome : Outcome

/-- The request body (`RestyleRequest` Pydantic model). -/
structure RestyleRequest where
  prompt : String
  html_structure : String

/-- Credential check shared by all variants:
`if not api_key or api_key == "YOUR_API_KEY_HERE"`. -/
def apiKeyOk : Option String → Bool
  | none => false
  | some k => !(k == "") && !(k == "YOUR_API_KEY_HERE")

/-- `server.py` module initialization of `model`: the
`genai.GenerativeModel(...)` constructor is guarded by its own
`try`/`except` and does not consult the API key; per the source comment
next to the key check, a missing key lets the server start and makes
API calls fail later. -/
def serverPy_model (ctorOk : Bool) : Bool := ctorOk

/-- The upstream prompt of `server.py` (its `system_prompt` f-string):
note it embeds `request.html_structure` verbatim, with no sanitizer
call anywhere in this variant. -/
def serverPy_system_prompt (prompt html : String) : String :=
  "You are a world-class web creative designer. Your task is to generate CSS code that overrides the styles of a webpage to satisfy a specific art direction, based *only* on the provided HTML structure.\n\nContext:\n1.  **Art Direction:** " ++ prompt ++
  "\n2.  **Current HTML Structure (simplified):**\n    ```html\n    " ++ html ++
  "\n    ```\n\nBased *only* on the art direction and the provided HTML structure, generate the necessary CSS override code.\nEnsure the CSS selectors are specific enough to target the intended elements based on the HTML structure.\nDo not include explanations or markdown formatting like ```css. Only return the raw CSS code.\n"

/-- The `/restyle` endpoint of `server.py`. -/
def restylePy (modelInit : Bool) (generate : Except String String)
    (req : RestyleRequest) : CallTrace :=
  if !modelInit then
    ⟨false, none,
      .httpError 500 "Generative model not initialized. Check API key and configuration."⟩
  else
    let sp := serverPy_system_prompt req.prompt req.html_structure
    match generate with
    | .error e => ⟨true, some sp, .httpError 500 ("Error generating style: " ++ e)⟩
    | .ok style =>
        ⟨true, some sp,
          .ok [("received_prompt", req.prompt), ("generated_style", style)]⟩

/-- The upstream prompt of `server-claude.py` (indented f-string),
taking the already-cleaned HTML. -/
def serverClaude_system_prompt (prompt cleaned : String) : String :=
  "You are a world-class, highly creative web designer. Your task is to generate CSS code that overrides\n    the styles of a webpage to satisfy a specific art direction, based *only* on the provided HTML structure.\n    \n    Context:\n    1.  **Art Direction:** " ++ prompt ++
  "\n    2.  **Current HTML Structure (simplified):**\n        ```html\n        " ++ cleaned ++
  "\n        ```\n    \n    Instructions:\n    - Be highly creative and bold in your CSS design choices.\n    - Over use small animations and transitions to make the page feel alive.\n    - In addition to changing colors (background, text, links, accents), also creatively modify:\n        • Border styles (width, color, style: solid, dashed, double, etc.)\n        • Border radius (rounded corners, pill shapes, etc.)\n        • Box shadows and text shadows for glowing effects\n        • Add !important to everything to ensure it overrides existing styles.\n        • Background images, colors, gradients, transparency, or patterns\n        • Text shadows, text decorations (underline, line-through)\n        • Font families, font weights, and font styles\n        • Spacing (padding, margin, letter-spacing, line-height)\n        • Button and input styles (hover, active, focus states)\n        • Any other visually impactful CSS properties\n        • Hover states, active states, and focus states should be included for interactive elements.\n    - Use a variety of CSS features to make the theme visually distinct and interesting.\n    - Ensure the CSS selectors are specific enough to target the intended elements based on the HTML structure.\n    - Ensure that foreground text and background colors have opposing contrast for readability.\n    - Do not include explanations or markdown formatting like ```css. Only return the raw CSS code.\n    "

/-- The `/restyle` endpoint of `server-claude.py`.  The HTML-snapshot
write (`save_html_structure`, which has no internal exception handler)
happens before the `try` block, so its exception escapes unhandled;
the CSS-snapshot write happens inside the `try` block, so its
exception is converted to the generic HTTP 500. -/
def restyleClaude (key : Option String) (enableHtmlLog enableCssLog : Bool)
    (parse : String → Except String Forest) (render : Forest → String)
    (saveHtml generate saveCss : Except String String)
    (req : RestyleRequest) : CallTrace :=
  if !(apiKeyOk key) then
    ⟨false, none,
      .httpError 500 "Anthropic client not initialized. Check API key and configuration."⟩
  else
    let cleaned := clean_html_for_llm attrsToRemove_claude parse render req.html_structure
    match (if enableHtmlLog then saveHtml else .ok "HTML logging disabled") with
    | .error e => ⟨false, none, .unhandled e⟩
    | .ok _ =>
      let sp := serverClaude_system_prompt req.prompt cleaned
      match generate with
      | .error e => ⟨true, some sp, .httpError 500 ("Error generating style: " ++ e)⟩
      | .ok style =>
        match (if enableCssLog then saveCss else .ok "CSS logging disabled") with
        | .error e => ⟨true, some sp, .httpError 500 ("Error generating style: " ++ e)⟩
        | .ok _ => ⟨true, some sp, .ok [("generated_style", style)]⟩

/-- The upstream prompt of `server-or.py` (indented f-string), taking
the already-cleaned HTML. -/
def serverOr_system_prompt (prompt cleaned : String) : String :=
  "You are a world-class, highly creative web designer. Your task is to generate CSS code that overrides\n    the styles of a webpage to satisfy a specific art direction, based *only* on the provided HTML structure.\n    \n    Context:\n    1.  **Art Direction:** " ++ prompt ++
  "\n    2.  **Current HTML Structure (simplified):**\n        ```html\n        " ++ cleaned ++
  "\n        ```\n    \n    Instructions:\n    - Be highly creative and bold in your CSS design choices while at the same time make it a PRIORITY to IMPROVE the UI if possible.\n    - Over use small animations and transitions to make the page feel alive.\n    - In addition to changing colors (background, text, links, accents), also creatively modify:\n        • Border styles (width, color, style: solid, dashed, double, etc.)\n        • Border radius (rounded corners, pill shapes, etc.)\n        • Box shadows and text shadows for glowing effects\n        • Add !important to everything to ensure it overrides existing styles.\n        • Background images, colors, gradients, transparency, or patterns\n        • Text shadows, text decorations (underline, line-through)\n        • Font families, font weights, and font styles\n        • Spacing (padding, margin, letter-spacing, line-height)\n        • Button and input styles (hover, active, focus states)\n        • Any other visually impactful CSS properties\n        • Hover states, active states, and focus states should be included for interactive elements.\n    - Use a variety of CSS features to make the theme visually distinct and interesting.\n    - Ensure the CSS selectors are specific enough to target the intended elements based on the HTML structure.\n    - Ensure that foreground text and background colors have opposing contrast for readability.\n    - Do not include explanations or markdown formatting like ```css. Only return the raw CSS code.\n    "

/-- The `/restyle` endpoint of `server-or.py`.  Same shape as the
Claude variant: key check first, sanitize, HTML snapshot outside the
`try` block, upstream call and CSS snapshot inside it. -/
def restyleOr (key : Option String) (enableHtmlLog enableCssLog : Bool)
    (parse : String → Except String Forest) (render : Forest → String)
    (saveHtml generate saveCss : Except String String)
    (req : RestyleRequest) : CallTrace :=
  if !(apiKeyOk key) then
    ⟨false, none,
      .httpError 500 "OpenRouter API key not initialized. Check OPENROUTER_API_KEY in .env."⟩
  else
    let cleaned := clean_html_for_llm attrsToRemove_or parse render req.html_structure
    match (if enableHtmlLog then saveHtml else .ok "HTML logging disabled") with
    | .error e => ⟨false, none, .unhandled e⟩
    | .ok _ =>
      let sp := serverOr_system_prompt req.prompt cleaned
      match generate with
      | .error e => ⟨true, some sp, .httpError 500 ("Error generating style: " ++ e)⟩
      | .ok style =>
        match (if enableCssLog then saveCss else .ok "CSS logging disabled") with
        | .error e => ⟨true, some sp, .httpError 500 ("Error generating style: " ++ e)⟩
        | .ok _ => ⟨true, some sp, .ok [("generated_style", style)]⟩

/-! ### href/src safety of the output (claims C5 and C10) -/

/-- C5 marker: the value contains `[sanitized` or begins with
`javascript:`. -/
def c5Marker (v : String) : Bool :=
  containsSub v "[sanitized" || strStarts v "javascript:"

/-- C10 marker: the value contains `javascript:` anywhere. -/
def c10Marker (v : String) : Bool := containsSub v "javascript:"

/-- An optional attribute value is safe for a marker predicate: either
absent, or unmarked, or already the placeholder `#`. -/
def optValSafe (bad : String → Bool) : Option String → Bool
  | none => true
  | some w => !(bad w) || (w == "#")

/-- The element's `href` and `src` values are safe for a marker. -/
def hrefSrcSafe (bad : String → Bool) : Node → Bool
  | .elem _ a _ => optValSafe bad (getAttr a "href") && optValSafe bad (getAttr a "src")
  | _ => true

/-- After the attribute rewrite, the `href`/`src` value (if any) is
safe for every marker implied by the rewrite condition. -/
theorem getAttr_cleanAttrs_safe (bad : String → Bool)
    (hbad : ∀ v, bad v = true →
      (containsSub v "[sanitized" || containsSub v "javascript:") = true)
    (L : List String) (nm : String) (hnm : nm = "href" ∨ nm = "src") :
    ∀ a, optValSafe bad (getAttr (cleanAttrs L a) nm) = true := by
  intro a
  induction a with
  | nil => rfl
  | cons p rest ih =>
    obtain ⟨b, u⟩ := p
    cases hp : processAttr L (b, u) with
    | none =>
      rw [cleanAttrs_cons_none L b u rest hp]
      exact ih
    | some q =>
      obtain ⟨b', w⟩ := q
      have hb : b' = b := processAttr_name L b u b' w hp
      rw [hb] at hp
      rw [cleanAttrs_cons_some L b u (b, w) rest hp]
      by_cases hbe : (b == nm) = true
      · rw [getAttr_cons_eq b nm w (cleanAttrs L rest) hbe]
        simp only [processAttr] at hp
        by_cases hc : ((b == "href" || b == "src") && !(u == "")
            && (containsSub u "[sanitized" || containsSub u "javascript:")) = true
        · rw [if_pos hc] at hp
          simp only [Option.some.injEq, Prod.mk.injEq] at hp
          rw [← hp.2]
          simp [optValSafe]
        · rw [if_neg hc] at hp
          by_cases hd : (strStarts b "data-" || L.contains b) = true
          · rw [if_pos hd] at hp
            exact absurd hp (by simp)
          · rw [if_neg hd] at hp
            simp only [Option.some.injEq, Prod.mk.injEq] at hp
            rw [← hp.2]
            simp only [optValSafe, Bool.or_eq_true, Bool.not_eq_true']
            rcases hbu : bad u with _ | _
            · left
              rfl
            · exfalso
              have hmf := hbad u hbu
              have hnmb : (b == "href" || b == "src") = true := by
                have hb2 : b = nm := by simpa using hbe
                subst hb2
                rcases hnm with h | h <;> subst h <;> rfl
              have hne : (u == "") = false := marker_nonempty u hmf
              exact hc (by rw [hnmb, hne, hmf]; rfl)
      · have hbe' : (b == nm) = false := by simpa using hbe
        rw [getAttr_cons_ne b nm w (cleanAttrs L rest) hbe']
        exact ih

/-- The attribute pass makes every element href/src-safe. -/
theorem attrs_establishes_safe (bad : String → Bool)
    (hbad : ∀ v, bad v = true →
      (containsSub v "[sanitized" || containsSub v "javascript:") = true)
    (L : List String) :
    (ns : Forest) → forestAll (hrefSrcSafe bad) (attrsForest L ns) = true
  | .nil => rfl
  | .cons (.elem t a c) ns => by
      simp only [attrsForest, forestAll, Bool.and_eq_true]
      refine ⟨⟨?_, attrs_establishes_safe bad hbad L c⟩, attrs_establishes_safe bad hbad L ns⟩
      simp only [hrefSrcSafe, Bool.and_eq_true]
      exact ⟨getAttr_cleanAttrs_safe bad hbad L "href" (Or.inl rfl) a,
        getAttr_cleanAttrs_safe bad hbad L "src" (Or.inr rfl) a⟩
  | .cons (.text s) ns => by
      simp only [attrsForest, forestAll, Bool.and_eq_true]
      exact ⟨rfl, attrs_establishes_safe bad hbad L ns⟩
  | .cons (.comment s) ns => by
      simp only [attrsForest, forestAll, Bool.and_eq_true]
      exact ⟨rfl, attrs_establishes_safe bad hbad L ns⟩

theorem hrefSrcSafe_childIndep (bad : String → Bool) : childIndep (hrefSrcSafe bad) :=
  fun _ _ _ _ => rfl

/-- The whole pipeline makes every surviving element href/src-safe. -/
theorem outInv_safe (bad : String → Bool)
    (hbad : ∀ v, bad v = true →
      (containsSub v "[sanitized" || containsSub v "javascript:") = true)
    (L : List String) (d : Forest) :
    forestAll (hrefSrcSafe bad) (cleanDoc L d) = true := by
  have h7 : forestAll (hrefSrcSafe bad) (stage7 L d) = true :=
    attrs_establishes_safe bad hbad L (stage6 d)
  exact chain_prune emptyDivB _ (hrefSrcSafe_childIndep bad) h7

/-! ### Agreement of the three sanitizer variants (claim C9) -/

/-- No attribute of the element is `role` or `aria-*`. -/
def noRoleAriaB : Node → Bool
  | .elem _ a _ => a.all (fun p => !((p.1 == "role") || strStarts p.1 "aria-"))
  | _ => true

theorem noRoleAriaB_childIndep : childIndep noRoleAriaB :=
  fun _ _ _ _ => rfl

/-- The claude denylist is the common denylist plus the accessibility
entries. -/
theorem claude_eq_common_append :
    attrsToRemove_claude = attrsToRemove_common ++ claudeExtraAttrs := rfl

/-- Every extra claude entry is `role` or `aria-*`. -/
theorem claudeExtras_roleAria :
    claudeExtraAttrs.all (fun x => (x == "role") || strStarts x "aria-") = true := rfl

/-- Membership in the two denylists agrees on names that are neither
`role` nor `aria-*`. -/
theorem contains_claude_eq_common (b : String)
    (hb : ((b == "role") || strStarts b "aria-") = false) :
    attrsToRemove_claude.contains b = attrsToRemove_common.contains b := by
  rw [claude_eq_common_append]
  rcases hc : attrsToRemove_common.contains b with _ | _
  · rcases he : claudeExtraAttrs.contains b with _ | _
    · rw [List.contains_eq_any_beq] at hc he ⊢
      rw [List.any_append, hc, he]
      rfl
    · exfalso
      have hmem : b ∈ claudeExtraAttrs := by
        have := he
        simpa [List.contains_iff_exists_mem_beq] using this
      have := (List.all_eq_true.mp claudeExtras_roleAria) b hmem
      rw [hb] at this
      exact absurd this (by simp)
  · rw [List.contains_eq_any_beq] at hc ⊢
    rw [List.any_append, hc]
    rfl

/-- `processAttr` agrees for the two denylists on non-role/aria
attribute names. -/
theorem processAttr_claude_eq_common (b u : String)
    (hb : ((b == "role") || strStarts b "aria-") = false) :
    processAttr attrsToRemove_claude (b, u) = processAttr attrsToRemove_common (b, u) := by
  simp only [processAttr, contains_claude_eq_common b hb]

/-- `cleanAttrs` agrees for the two denylists on dictionaries free of
role/aria names. -/
theorem cleanAttrs_claude_eq_common :
    ∀ a, a.all (fun p => !((p.1 == "role") || strStarts p.1 "aria-")) = true →
      cleanAttrs attrsToRemove_claude a = cleanAttrs attrsToRemove_common a := by
  intro a
  induction a with
  | nil => intro _; rfl
  | cons p rest ih =>
    obtain ⟨b, u⟩ := p
    intro h
    simp only [List.all_cons, Bool.and_eq_true] at h
    have hb : ((b == "role") || strStarts b "aria-") = false := by
      simpa using h.1
    have hstep := processAttr_claude_eq_common b u hb
    simp only [cleanAttrs, List.filterMap_cons, hstep]
    cases hp : processAttr attrsToRemove_common (b, u) with
    | none =>
      simpa [cleanAttrs] using ih h.2
    | some q =>
      have := ih h.2
      simp only [cleanAttrs] at this
      rw [this]

/-- The attribute pass agrees for the two denylists on forests free of
role/aria attributes. -/
theorem attrsForest_claude_eq_common :
    (ns : Forest) → forestAll noRoleAriaB ns = true →
      attrsForest attrsToRemove_claude ns = attrsForest attrsToRemove_common ns
  | .nil, _ => rfl
  | .cons (.elem t a c) ns, h => by
      simp only [forestAll, Bool.and_eq_true] at h
      have ha : a.all (fun p => !((p.1 == "role") || strStarts p.1 "aria-")) = true := by
        simpa [noRoleAriaB] using h.1.1
      simp only [attrsForest, cleanAttrs_claude_eq_common a ha,
        attrsForest_claude_eq_common c h.1.2, attrsForest_claude_eq_common ns h.2]
  | .cons (.text s) ns, h => by
      simp only [forestAll, Bool.and_eq_true] at h
      simp only [attrsForest, attrsForest_claude_eq_common ns h.2]
  | .cons (.comment s) ns, h => by
      simp only [forestAll, Bool.and_eq_true] at h
      simp only [attrsForest, attrsForest_claude_eq_common ns h.2]

/-! ### Text content of a div (claim C6) -/

/-- All direct text children are whitespace-only. -/
def textNodesWs : Forest → Bool
  | .nil => true
  | .cons (.text s) ns => s.data.all isPyWs && textNodesWs ns
  | .cons _ ns => textNodesWs ns

/-- For comment-free children without element children whose text is
all whitespace, the `div.string` test of pass 7 accepts. -/
theorem childString_ws (c : Forest)
    (h3 : hasElemChild c = false)
    (h4 : forestAll (fun n => !isCommentB n) c = true)
    (h5 : textNodesWs c = true) :
    (match childString c with
     | none => true
     | some s => s.data.all isPyWs) = true := by
  cases c with
  | nil => rfl
  | cons n ms =>
    cases ms with
    | nil =>
      cases n with
      | elem t a cc => exact absurd h3 (by simp [hasElemChild])
      | text s =>
        simp only [textNodesWs, Bool.and_eq_true] at h5
        simpa [childString] using h5.1
      | comment s => exact absurd h4 (by simp [forestAll, isCommentB])
    | cons m mms =>
      cases n with
      | elem t a cc => exact absurd h3 (by simp [hasElemChild])
      | text s => rfl
      | comment s => rfl

/-! ### The claims -/

/-- C1, as stated, is false: the empty-div collapse is single-pass, so
on `<div><div></div></div>` the first run removes only the inner div
(the outer one still has an element child when it is examined) and the
second run removes the newly emptied outer div, giving a different
output. -/
theorem claim_C1_counterexample :
    ¬ (cleanDoc attrsToRemove_common
        (cleanDoc attrsToRemove_common
          (.cons (.elem "div" [] (.cons (.elem "div" [] .nil) .nil)) .nil)) =
      cleanDoc attrsToRemove_common
        (.cons (.elem "div" [] (.cons (.elem "div" [] .nil) .nil)) .nil)) := by
  intro h
  have h1 : cleanDoc attrsToRemove_common
      (cleanDoc attrsToRemove_common
        (.cons (.elem "div" [] (.cons (.elem "div" [] .nil) .nil)) .nil)) = Forest.nil := rfl
  have h2 : cleanDoc attrsToRemove_common
      (.cons (.elem "div" [] (.cons (.elem "div" [] .nil) .nil)) .nil) =
      .cons (.elem "div" [] .nil) .nil := rfl
  rw [h1, h2] at h
  exact Forest.noConfusion h

/-- C1 (amended): the sanitizer is idempotent on every input whose
sanitized output contains no attribute-free, element-free,
whitespace-only div — the only pass whose removal condition a first
run can newly create is the single-pass empty-div collapse.  The
denylist side conditions hold for all three variants by computation. -/
theorem claim_C1_amended (L : List String)
    (hhref : L.contains "href" = false) (hsrc : L.contains "src" = false)
    (hclass : L.contains "class" = false) (hid : L.contains "id" = false)
    (d : Forest)
    (hnd : forestAll (fun n => !emptyDivB n) (cleanDoc L d) = true) :
    cleanDoc L (cleanDoc L d) = cleanDoc L d :=
  cleanDoc_idem L hhref hsrc hclass hid d hnd

/-- Witness for C1 (amended) at a concrete document. -/
theorem claim_C1_witness :
    cleanDoc attrsToRemove_common
      (cleanDoc attrsToRemove_common
        (.cons (.elem "p" [] (.cons (.text "hello") .nil)) .nil)) =
    cleanDoc attrsToRemove_common
      (.cons (.elem "p" [] (.cons (.text "hello") .nil)) .nil) :=
  claim_C1_amended attrsToRemove_common rfl rfl rfl rfl
    (.cons (.elem "p" [] (.cons (.text "hello") .nil)) .nil) rfl

/-- C2: `clean_html_for_llm` is a total function (it returns a string
for every input and every behavior of the external parser), and when
the parse step raises, the original input is returned verbatim. -/
theorem claim_C2 (toRemove : List String)
    (parse : String → Except String Forest) (render : Forest → String)
    (html msg : String) (hne : ¬ html = "") (herr : parse html = .error msg) :
    clean_html_for_llm toRemove parse render html = html := by
  rw [clean_html_for_llm]
  have hb : (html == "") = false := by simpa using hne
  rw [hb]
  simp [herr]

/-- Witness for C2 with a concretely failing parser. -/
theorem claim_C2_witness :
    clean_html_for_llm attrsToRemove_common
      (fun _ => Except.error "lxml parse failure") (fun _ => "")
      "<p>x" = "<p>x" :=
  claim_C2 attrsToRemove_common (fun _ => Except.error "lxml parse failure")
    (fun _ => "") "<p>x" "lxml parse failure" (by decide) rfl

set_option maxRecDepth 40000 in
/-- C3, as stated, is false for the `server.py` variant: its endpoint
never calls the sanitizer and interpolates `request.html_structure`
verbatim into the prompt, so a request whose HTML contains a script
block yields an upstream prompt containing the literal `<script>`. -/
theorem claim_C3_counterexample :
    containsSub "<html><body><script>x</script><div>Hi</div></body></html>" "<script>" = true ∧
    (restylePy (serverPy_model true) (.ok "generated-css")
        ⟨"make it cyberpunk",
          "<html><body><script>x</script><div>Hi</div></body></html>"⟩).upstreamPrompt =
      some (serverPy_system_prompt "make it cyberpunk"
        "<html><body><script>x</script><div>Hi</div></body></html>") ∧
    containsSub (serverPy_system_prompt "make it cyberpunk"
        "<html><body><script>x</script><div>Hi</div></body></html>") "<script>" = true := by
  refine ⟨rfl, rfl, ?_⟩
  rfl

/-- C3 (amended): in the sanitizing variants (`server-claude.py`,
`server-or.py`) the HTML embedded in the upstream prompt is the
sanitizer output — `restyleClaude`/`restyleOr` interpolate
`clean_html_for_llm` of the request — and that output contains no
script element. -/
theorem claim_C3_amended (d : Forest) :
    forestAll (fun n => !tagInB ["script"] n) (cleanDoc attrsToRemove_claude d) = true ∧
    forestAll (fun n => !tagInB ["script"] n) (cleanDoc attrsToRemove_or d) = true := by
  have hmono : ∀ n, (fun n => !tagInB killTags n) n = true →
      (fun n => !tagInB ["script"] n) n = true := by
    intro n h
    cases n with
    | elem t a c =>
      simp only [tagInB, Bool.not_eq_true'] at h ⊢
      rcases hs : (["script"] : List String).contains t with _ | _
      · rfl
      · have ht : t = "script" := by
          have := hs
          simpa [List.contains_iff_exists_mem_beq] using this
        subst ht
        exact absurd h (by simp [killTags])
    | text s => rfl
    | comment s => rfl
  exact ⟨forestAll_mono _ _ hmono _ (outInv_kill attrsToRemove_claude d),
    forestAll_mono _ _ hmono _ (outInv_kill attrsToRemove_or d)⟩

/-- C4, as stated, is false for the `server.py` variant: its success
response carries a second field `received_prompt` echoing the request
prompt. -/
theorem claim_C4_counterexample :
    (restylePy (serverPy_model true) (.ok "generated-css")
        ⟨"make it cyberpunk", "<div>Hi</div>"⟩).outcome =
      .ok [("received_prompt", "make it cyberpunk"), ("generated_style", "generated-css")] ∧
    ¬ ([("received_prompt", "make it cyberpunk"), ("generated_style", "generated-css")] =
        [(("generated_style", "generated-css") : String × String)]) :=
  ⟨rfl, by decide⟩

/-- C4 (amended): the `server-claude.py` and `server-or.py` variants
return, on success, exactly the single field `generated_style`, whose
value is the upstream result and not any part of the request. -/
theorem claim_C4_amended (key : Option String) (eh ec : Bool)
    (parse : String → Except String Forest) (render : Forest → String)
    (s1 s2 style : String) (req : RestyleRequest)
    (hkey : apiKeyOk key = true) :
    (restyleClaude key eh ec parse render (.ok s1) (.ok style) (.ok s2) req).outcome =
      .ok [("generated_style", style)] ∧
    (restyleOr key eh ec parse render (.ok s1) (.ok style) (.ok s2) req).outcome =
      .ok [("generated_style", style)] := by
  have hk : (!(apiKeyOk key)) = false := by rw [hkey]; rfl
  constructor
  · simp only [restyleClaude, hk, Bool.false_eq_true, if_false]
    cases eh <;> cases ec <;> rfl
  · simp only [restyleOr, hk, Bool.false_eq_true, if_false]
    cases eh <;> cases ec <;> rfl

/-- Witness for C4 (amended) at a concrete request. -/
theorem claim_C4_witness :
    (restyleClaude (some "sk-key") true true (fun _ => Except.error "e") (fun _ => "")
        (.ok "p1") (.ok "generated-css2") (.ok "p2")
        ⟨"make it warm", "<div>x</div>"⟩).outcome =
      .ok [("generated_style", "generated-css2")] ∧
    (restyleOr (some "sk-key") true true (fun _ => Except.error "e") (fun _ => "")
        (.ok "p1") (.ok "generated-css2") (.ok "p2")
        ⟨"make it warm", "<div>x</div>"⟩).outcome =
      .ok [("generated_style", "generated-css2")] :=
  claim_C4_amended (some "sk-key") true true (fun _ => Except.error "e") (fun _ => "")
    "p1" "p2" "generated-css2" ⟨"make it warm", "<div>x</div>"⟩ rfl

/-- C5: an `href`/`src` value containing `[sanitized` or beginning with
`javascript:` is replaced by the single character `#` by the attribute
pass, and every element of the full sanitizer output is safe for that
marker. -/
theorem claim_C5 :
    (∀ (L : List String) (attrs : List (String × String)) (nm v : String),
      (nm = "href" ∨ nm = "src") → getAttr attrs nm = some v → c5Marker v = true →
      getAttr (cleanAttrs L attrs) nm = some "#") ∧
    (∀ (L : List String) (d : Forest),
      forestAll (hrefSrcSafe c5Marker) (cleanDoc L d) = true) := by
  constructor
  · intro L attrs nm v hnm hget hmk
    apply getAttr_cleanAttrs_marker L nm hnm attrs v hget
    simp only [c5Marker, Bool.or_eq_true] at hmk
    rcases hmk with h | h
    · rw [h]
      rfl
    · rw [strStarts_containsSub v "javascript:" h]
      simp
  · intro L d
    apply outInv_safe
    intro v hv
    simp only [c5Marker, Bool.or_eq_true] at hv
    rcases hv with h | h
    · rw [h]
      rfl
    · rw [strStarts_containsSub v "javascript:" h]
      simp

/-- Witness for C5 at `href="javascript:alert(1)"`. -/
theorem claim_C5_witness :
    getAttr (cleanAttrs attrsToRemove_common [("href", "javascript:alert(1)")]) "href" =
      some "#" :=
  claim_C5.1 attrsToRemove_common [("href", "javascript:alert(1)")] "href"
    "javascript:alert(1)" (Or.inl rfl) rfl rfl

/-- C6: when the collapse pass (the final pass of the sanitizer) runs,
a div with no attributes, no element children, no comments among its
children (comments were removed in pass 2) and only whitespace text is
removed, while a div carrying at least one attribute is retained with
its tag and attributes. -/
theorem claim_C6 (t : String) (a : List (String × String)) (c : Forest) :
    (t = "div" → a = [] → hasElemChild c = false →
      forestAll (fun n => !isCommentB n) c = true → textNodesWs c = true →
      pruneForest emptyDivB (.cons (.elem t a c) .nil) = .nil) ∧
    (t = "div" → ¬ a = [] →
      pruneForest emptyDivB (.cons (.elem t a c) .nil) =
        .cons (.elem t a (pruneForest emptyDivB c)) .nil) ∧
    (∀ (L : List String) (d : Forest), cleanDoc L d = pruneForest emptyDivB (stage7 L d)) := by
  refine ⟨?_, ?_, fun L d => rfl⟩
  · intro h1 h2 h3 h4 h5
    subst h1
    subst h2
    have he : emptyDivB (.elem "div" [] c) = true := by
      simp [emptyDivB, childString_ws c h3 h4 h5, h3]
    simp [pruneForest, he]
  · intro h1 ha
    have hne : emptyDivB (.elem t a c) = false := by
      cases a with
      | nil => exact absurd rfl ha
      | cons p rest => simp [emptyDivB]
    simp [pruneForest, hne]

/-- Witness for C6: the empty attribute-free div is removed; the div
with a class attribute is retained. -/
theorem claim_C6_witness :
    pruneForest emptyDivB (.cons (.elem "div" [] .nil) .nil) = .nil ∧
    pruneForest emptyDivB (.cons (.elem "div" [("class", "x")] .nil) .nil) =
      .cons (.elem "div" [("class", "x")] (pruneForest emptyDivB .nil)) .nil :=
  ⟨(claim_C6 "div" [] .nil).1 rfl rfl rfl rfl rfl,
   (claim_C6 "div" [("class", "x")] .nil).2.1 rfl (by decide)⟩

/-- C7 is a code bug: `save_html_structure` has no exception handler
and is called before the endpoint `try` block, so an I/O error while
writing the HTML snapshot escapes unhandled and fails the request; an
I/O error while writing the CSS snapshot is caught by the generic
handler and still fails the request with HTTP 500.  This theorem
evaluates the `server-claude.py` endpoint at both failing inputs. -/
theorem claim_C7_failing :
    (restyleClaude (some "sk-ant-key") true false (fun _ => Except.error "noparse")
        (fun _ => "") (.error "Errno 13 Permission denied: requests")
        (.ok "generated-css") (.ok "csspath")
        ⟨"make it cyberpunk", "<div>Hi</div>"⟩).outcome =
      .unhandled "Errno 13 Permission denied: requests" ∧
    (restyleClaude (some "sk-ant-key") true true (fun _ => Except.error "noparse")
        (fun _ => "") (.ok "htmlpath") (.ok "generated-css")
        (.error "Errno 13 Permission denied: css")
        ⟨"make it cyberpunk", "<div>Hi</div>"⟩).outcome =
      .httpError 500 "Error generating style: Errno 13 Permission denied: css" :=
  ⟨rfl, rfl⟩

/-- C8, as stated, is false for the `server.py` variant: its `model`
object is constructed independently of the credential (the source lets
the server start and the calls fail later), so with a missing key the
endpoint still attempts the upstream call and only then fails with the
generic message. -/
theorem claim_C8_counterexample :
    apiKeyOk none = false ∧
    (restylePy (serverPy_model true) (.error "403 PERMISSION_DENIED: API key not valid")
        ⟨"make it cyberpunk", "<div>Hi</div>"⟩).upstreamAttempted = true ∧
    (restylePy (serverPy_model true) (.error "403 PERMISSION_DENIED: API key not valid")
        ⟨"make it cyberpunk", "<div>Hi</div>"⟩).outcome =
      .httpError 500 "Error generating style: 403 PERMISSION_DENIED: API key not valid" :=
  ⟨rfl, rfl, rfl⟩

/-- C8 (amended): the `server-claude.py` and `server-or.py` variants
fail fast on a missing or placeholder credential, with a 500 whose
detail mentions the API key, and without attempting the upstream
call. -/
theorem claim_C8_amended (key : Option String) (hkey : apiKeyOk key = false)
    (eh ec : Bool) (parse : String → Except String Forest) (render : Forest → String)
    (sh g sc : Except String String) (req : RestyleRequest) :
    restyleClaude key eh ec parse render sh g sc req =
      ⟨false, none,
        .httpError 500 "Anthropic client not initialized. Check API key and configuration."⟩ ∧
    containsSub "Anthropic client not initialized. Check API key and configuration."
      "API key" = true ∧
    restyleOr key eh ec parse render sh g sc req =
      ⟨false, none,
        .httpError 500 "OpenRouter API key not initialized. Check OPENROUTER_API_KEY in .env."⟩ ∧
    containsSub "OpenRouter API key not initialized. Check OPENROUTER_API_KEY in .env."
      "API key" = true := by
  have hk : (!(apiKeyOk key)) = true := by rw [hkey]; rfl
  refine ⟨?_, rfl, ?_, rfl⟩
  · simp [restyleClaude, hk]
  · simp [restyleOr, hk]

/-- Witness for C8 (amended) with the credential absent. -/
theorem claim_C8_witness :
    restyleClaude none true true (fun _ => Except.error "e") (fun _ => "")
      (.ok "a") (.ok "b") (.ok "c") ⟨"p", "<div></div>"⟩ =
      ⟨false, none,
        .httpError 500 "Anthropic client not initialized. Check API key and configuration."⟩ ∧
    containsSub "Anthropic client not initialized. Check API key and configuration."
      "API key" = true ∧
    restyleOr none true true (fun _ => Except.error "e") (fun _ => "")
      (.ok "a") (.ok "b") (.ok "c") ⟨"p", "<div></div>"⟩ =
      ⟨false, none,
        .httpError 500 "OpenRouter API key not initialized. Check OPENROUTER_API_KEY in .env."⟩ ∧
    containsSub "OpenRouter API key not initialized. Check OPENROUTER_API_KEY in .env."
      "API key" = true :=
  claim_C8_amended none rfl true true (fun _ => Except.error "e") (fun _ => "")
    (.ok "a") (.ok "b") (.ok "c") ⟨"p", "<div></div>"⟩

/-- C9: the common and server-or sanitizers are extensionally equal
(their sources are byte-identical), and on documents free of `role`
and `aria-*` attributes the stricter server-claude sanitizer agrees
with them (its denylist differs from theirs exactly by the
accessibility entries). -/
theorem claim_C9 :
    (∀ d : Forest, cleanDoc attrsToRemove_or d = cleanDoc attrsToRemove_common d) ∧
    (∀ d : Forest, forestAll noRoleAriaB d = true →
      cleanDoc attrsToRemove_claude d = cleanDoc attrsToRemove_common d) := by
  constructor
  · intro d
    rfl
  · intro d hd
    have h1 := chain_prune (tagInB killTags) _ noRoleAriaB_childIndep hd
    have h2 := chain_prune isCommentB _ noRoleAriaB_childIndep h1
    have h3 := chain_svg _ noRoleAriaB_childIndep h2
    have h4 := chain_prune hasHiddenB _ noRoleAriaB_childIndep h3
    have h5 := chain_fold _ noRoleAriaB_childIndep nonVisiblePatterns h4
    have h6 := chain_prune (tagInB youtubeNonVisible) _ noRoleAriaB_childIndep h5
    have h7 : stage7 attrsToRemove_claude d = stage7 attrsToRemove_common d :=
      attrsForest_claude_eq_common (stage6 d) h6
    show pruneForest emptyDivB (stage7 attrsToRemove_claude d) =
      pruneForest emptyDivB (stage7 attrsToRemove_common d)
    rw [h7]

/-- Witness for C9 at a concrete role/aria-free document. -/
theorem claim_C9_witness :
    cleanDoc attrsToRemove_claude (.cons (.elem "p" [("class", "x")] .nil) .nil) =
      cleanDoc attrsToRemove_common (.cons (.elem "p" [("class", "x")] .nil) .nil) :=
  claim_C9.2 (.cons (.elem "p" [("class", "x")] .nil) .nil) rfl

/-- C10: the code tests `javascript:` by containment, not only as the
leading scheme, so an `href`/`src` value containing `javascript:`
anywhere is replaced by `#`, and every element of the sanitizer output
is safe for that containment marker. -/
theorem claim_C10 :
    (∀ (L : List String) (attrs : List (String × String)) (nm v : String),
      (nm = "href" ∨ nm = "src") → getAttr attrs nm = some v → c10Marker v = true →
      getAttr (cleanAttrs L attrs) nm = some "#") ∧
    (∀ (L : List String) (d : Forest),
      forestAll (hrefSrcSafe c10Marker) (cleanDoc L d) = true) := by
  constructor
  · intro L attrs nm v hnm hget hmk
    apply getAttr_cleanAttrs_marker L nm hnm attrs v hget
    simp only [c10Marker] at hmk
    rw [hmk]
    simp
  · intro L d
    apply outInv_safe
    intro v hv
    simp only [c10Marker] at hv
    rw [hv]
    simp

/-- Witness for C10 at a URL with an embedded `javascript:` payload. -/
theorem claim_C10_witness :
    getAttr (cleanAttrs attrsToRemove_common
      [("href", "https://example.com/?next=javascript:alert(1)")]) "href" = some "#" :=
  claim_C10.1 attrsToRemove_common
    [("href", "https://example.com/?next=javascript:alert(1)")]
    "href" "https://example.com/?next=javascript:alert(1)" (Or.inl rfl) rfl rfl
